import Mathlib

/-!
Shallow embedding of the YoutubeTLDR-Ollama server core, translated from
src/src/main.rs and src/src/ollama.rs: request framing over a byte stream,
route dispatch, the background-job registry with its JSON status bodies,
job-id generation, and the multi-turn Ollama completion loop.

Conventions of the embedding:
* byte streams are lists of `UInt8`; a blocking `read` that returns a chunk
  is modelled by consuming the next element of a list of chunks;
* the shared `HashMap<String, JobStatus>` behind the mutex is modelled as a
  function `String → Option JobStatus`, one `insert` at a time;
* external collaborators (the YouTube transcript fetcher and the Ollama
  HTTP backend) are parameters: a fetch outcome, and a per-turn backend
  behaviour for the completion loop;
* `String` helpers from the Rust standard library are re-translated on the
  underlying character list (`starts_with`, `strip_prefix`, `split`,
  `trim`, ...) so that every definition is executable by the kernel.
-/

/-- Character-list version of `str::starts_with` (Rust) /
`&[u8]::starts_with`. -/
def strStartsWith (s p : String) : Bool :=
  p.data.isPrefixOf s.data

/-- Character-list version of `str::ends_with`. -/
def strEndsWith (s p : String) : Bool :=
  p.data.isSuffixOf s.data

/-- Character-list version of `str::is_empty`. -/
def strIsEmpty (s : String) : Bool :=
  s.data.isEmpty

/-- Character-list version of `str::strip_prefix`: the remainder of `s`
after `p` when `p` leads `s`, otherwise `none`. -/
def stripPfx (s p : String) : Option String :=
  if p.data.isPrefixOf s.data then some ⟨s.data.drop p.data.length⟩ else none

/-- `str::split(sep)` on a character list: the pieces between occurrences
of `sep` (an empty input gives one empty piece, as in Rust). -/
def splitOnChar (sep : Char) : List Char → List (List Char)
  | [] => [[]]
  | c :: rest =>
    let r := splitOnChar sep rest
    if c = sep then [] :: r
    else
      match r with
      | [] => [[c]]
      | h :: t => (c :: h) :: t

/-- `str::split(sep)` producing strings. -/
def strSplitOnChar (sep : Char) (s : String) : List String :=
  (splitOnChar sep s.data).map (fun l => ⟨l⟩)

/-- `str::trim` (whitespace at both ends removed; Rust trims Unicode
whitespace, the header values this is applied to are ASCII). -/
def strTrim (s : String) : String :=
  ⟨((s.data.dropWhile Char.isWhitespace).reverse.dropWhile Char.isWhitespace).reverse⟩

/-- `str::to_ascii_lowercase` (Lean's `Char.toLower` lowers exactly the
ASCII range, matching Rust's ASCII lowercasing). -/
def strToLower (s : String) : String :=
  ⟨s.data.map Char.toLower⟩

/-- `str::parse::<usize>()`: optional leading plus sign, then decimal
digits (overflow is not modelled; `Nat` is unbounded). -/
def parseUsize (s : String) : Option Nat :=
  (if strStartsWith s "+" then (⟨s.data.drop 1⟩ : String) else s).toNat?

/-- JSON escaping of one character as `serde_json` renders strings:
quote, backslash and the short control escapes, other control characters
as a lowercase `\u00XX` sequence, everything else verbatim. -/
def jsonEscChar (c : Char) : String :=
  if c = '"' then "\\\""
  else if c = '\\' then "\\\\"
  else if c = '\n' then "\\n"
  else if c = '\r' then "\\r"
  else if c = '\t' then "\\t"
  else if c = '\x08' then "\\b"
  else if c = '\x0c' then "\\f"
  else if c.toNat < 32 then
    "\\u00" ++ ⟨[Nat.digitChar (c.toNat / 16), Nat.digitChar (c.toNat % 16)]⟩
  else ⟨[c]⟩

/-- A JSON string literal for `s`, as `serde_json` renders it. -/
def jsonStr (s : String) : String :=
  "\"" ++ String.join (s.data.map jsonEscChar) ++ "\""

/-- `MAX_HEADER_SIZE` from src/src/main.rs (8 KB). -/
def MAX_HEADER_SIZE : Nat := 8 * 1024

/-- `MAX_BODY_SIZE` from src/src/main.rs (10 MB). -/
def MAX_BODY_SIZE : Nat := 10 * 1024 * 1024

/-- Outcome of `crossbeam_channel::Sender::try_send` as seen by
`handle_connection`: sent, `TrySendError::Full`, or
`TrySendError::Disconnected`. -/
inductive TrySendOutcome where
  | sent
  | full
  | disconnected
deriving DecidableEq

/-- What the accept path does with one incoming connection: the error
response it writes itself (status line and message), if any, and whether
a work item was enqueued for the worker pool. -/
structure AcceptOutcome where
  response : Option (String × String)
  enqueued : Bool
deriving DecidableEq

/-- `handle_connection` (src/src/main.rs lines 93-109): a non-blocking
enqueue attempt; on `Full` the accept loop itself answers 503, on
`Disconnected` it answers 500, otherwise the item is queued and the
accept path writes nothing. -/
def handle_connection : TrySendOutcome → AcceptOutcome
  | .sent => ⟨none, true⟩
  | .full => ⟨some ("503 Service Unavailable", "Server is busy, please try again later."), false⟩
  | .disconnected => ⟨some ("500 Internal Server Error", "Worker pool has been disconnected."), false⟩

/-- `read_body` (src/src/main.rs lines 381-397): the body starts with the
bytes already captured past the header terminator; then at most
`content_length.saturating_sub(initial_data.len())` further bytes are
read from the stream (`take(n).read_to_end` reads fewer only when the
stream ends early, modelled by `stream` holding the bytes the peer still
sends). -/
def read_body (initialData : List UInt8) (contentLength : Nat) (stream : List UInt8) : List UInt8 :=
  initialData ++ stream.take (contentLength - initialData.length)

/-- The routing alternatives of `handle_request` (src/src/main.rs lines
137-213), in the order the `if` chain tests them. -/
inductive Route where
  | get
  | summarize
  | submit
  | submitScript
  | notFound
deriving DecidableEq

/-- The dispatch of `handle_request` on the request line: `GET ` first,
then the three POST prefixes in source order.  Note the order: the
`POST /api/submit` test precedes the `POST /api/submit_script` test. -/
def routeOf (requestLine : String) : Route :=
  if strStartsWith requestLine "GET " then .get
  else if strStartsWith requestLine "POST /api/summarize" then .summarize
  else if strStartsWith requestLine "POST /api/submit" then .submit
  else if strStartsWith requestLine "POST /api/submit_script" then .submitScript
  else .notFound

/-- The 4-byte header terminator CRLFCRLF. -/
def headerTerm : List UInt8 := [13, 10, 13, 10]

/-- `buffer.windows(4).position(|w| w == b"\r\n\r\n")`: the index of the
first occurrence of the terminator in the buffer. -/
def findTerminator (l : List UInt8) : Option Nat :=
  match l with
  | [] => none
  | _ :: rest =>
    if headerTerm.isPrefixOf l then some 0
    else (findTerminator rest).map (· + 1)

/-- Result of `read_headers_from_stream`: the buffer and the body start
offset, or one of its failure modes.  `streamEnded` stands for the reads
the model does not supply (the real call would block and eventually
propagate an io error, which the claim sets aside as a propagated stream
error). -/
inductive HeaderResult where
  | ok (buffer : List UInt8) (bodyStart : Nat)
  | connectionClosed
  | headersTooLarge
  | streamEnded
deriving DecidableEq

/-- The loop of `read_headers_from_stream` (src/src/main.rs lines
323-342): read a chunk (a zero-length read fails with the
connection-closed error), append it to the buffer, return at the first
terminator occurrence, and fail once the buffer outgrows
`MAX_HEADER_SIZE` without a terminator. -/
def readHeadersGo : List (List UInt8) → List UInt8 → HeaderResult
  | [], _ => .streamEnded
  | c :: rest, buffer =>
    if c.length = 0 then .connectionClosed
    else
      let buffer2 := buffer ++ c
      match findTerminator buffer2 with
      | some pos => .ok buffer2 (pos + 4)
      | none =>
        if buffer2.length > MAX_HEADER_SIZE then .headersTooLarge
        else readHeadersGo rest buffer2

/-- `read_headers_from_stream`, starting from an empty buffer; the stream
is modelled as the list of chunks successive `read` calls return. -/
def read_headers_from_stream (chunks : List (List UInt8)) : HeaderResult :=
  readHeadersGo chunks []

/-- `str::lines()` as used on the header block: pieces split at `\n`,
each with one trailing `\r` removed, a final empty piece dropped. -/
def rustLines (s : String) : List String :=
  let ps := strSplitOnChar '\n' s
  let ps := if ps.getLast? = some "" then ps.dropLast else ps
  ps.map (fun l => if strEndsWith l "\r" then (⟨l.data.dropLast⟩ : String) else l)

/-- The test `line.to_ascii_lowercase().starts_with("content-length:")`
from `get_content_length`. -/
def isContentLengthLine (l : String) : Bool :=
  strStartsWith (strToLower l) "content-length:"

/-- `line.split(':').nth(1)?.trim().parse().ok()`: the text between the
first and second colon, trimmed and parsed as a usize. -/
def parseCLLine (l : String) : Option Nat :=
  ((strSplitOnChar ':' l).get? 1).bind (fun v => parseUsize (strTrim v))

/-- The header scan of `get_content_length` over the split lines: the
first line whose lowercased text starts with `content-length:` decides
the result (its parse, successful or not); later lines are never
consulted. -/
def getContentLengthGo : List String → Option Nat
  | [] => none
  | l :: rest => if isContentLengthLine l then parseCLLine l else getContentLengthGo rest

/-- `get_content_length` (src/src/main.rs lines 371-379) on the header
block text (the `from_utf8` step is modelled by working on text
directly). -/
def get_content_length (headers : String) : Option Nat :=
  getContentLengthGo (rustLines headers)

/-- Framing failures of the POST paths of `handle_request`. -/
inductive FramingError where
  | missingLength
  | bodyTooLarge
deriving DecidableEq

/-- The body-framing steps every POST branch of `handle_request` performs
(src/src/main.rs lines 139-147, 159-166, 186-191): a missing
`Content-Length` fails before anything is read, a declared length above
`MAX_BODY_SIZE` is rejected, otherwise the body is assembled by
`read_body`. -/
def postReadBody (requestData : String) (initialBody : List UInt8) (stream : List UInt8) :
    Except FramingError (List UInt8) :=
  match get_content_length requestData with
  | none => .error .missingLength
  | some len =>
    if len > MAX_BODY_SIZE then .error .bodyTooLarge
    else .ok (read_body initialBody len stream)

/-- `JobStatus` (src/src/main.rs lines 421-427).  The `Done` payload is a
`serde_json::Value`; the model keeps its rendered JSON text. -/
inductive JobStatus where
  | pending
  | done (result : String)
  | error (error : String)
deriving DecidableEq

/-- The job registry: the `HashMap<String, JobStatus>` behind
`JOBS`/`jobs_map`, as a lookup function. -/
def Registry : Type := String → Option JobStatus

/-- `HashMap::insert` on the registry model. -/
def regInsert (r : Registry) (id : String) (s : JobStatus) : Registry :=
  fun k => if k = id then some s else r k

/-- `insert_job_pending` (src/src/main.rs lines 442-446). -/
def insert_job_pending (r : Registry) (id : String) : Registry :=
  regInsert r id .pending

/-- `set_job_done` (src/src/main.rs lines 448-452). -/
def set_job_done (r : Registry) (id : String) (result : String) : Registry :=
  regInsert r id (.done result)

/-- `set_job_error` (src/src/main.rs lines 454-458). -/
def set_job_error (r : Registry) (id : String) (err : String) : Registry :=
  regInsert r id (.error err)

/-- One registry write, as performed by a submit handler or a spawned job
thread at some later time. -/
inductive RegOp where
  | insertPending (id : String)
  | setDone (id : String) (result : String)
  | setError (id : String) (err : String)

/-- Apply one registry write. -/
def applyRegOp (r : Registry) : RegOp → Registry
  | .insertPending id => insert_job_pending r id
  | .setDone id v => set_job_done r id v
  | .setError id e => set_job_error r id e

/-- Apply a sequence of registry writes, oldest first. -/
def applyRegOps (r : Registry) (ops : List RegOp) : Registry :=
  ops.foldl applyRegOp r

/-- serde serialization of `JobStatus` with `tag = "status"` and
lowercase variant names (src/src/main.rs lines 421-427). -/
def jobStatusJson : JobStatus → String
  | .pending => "\x7b\"status\":\"pending\"\x7d"
  | .done v => "\x7b\"status\":\"done\",\"result\":" ++ v ++ "\x7d"
  | .error e => "\x7b\"status\":\"error\",\"error\":" ++ jsonStr e ++ "\x7d"

/-- The exact not-found payload of `get_job_status_json`. -/
def notFoundJson : String := "\x7b\"status\":\"error\",\"error\":\"not_found\"\x7d"

/-- `get_job_status_json` (src/src/main.rs lines 529-535). -/
def get_job_status_json (r : Registry) (id : String) : String :=
  match r id with
  | some s => jobStatusJson s
  | none => notFoundJson

/-- The `{"job_id": <id>}` body a submit branch returns
(src/src/main.rs lines 184, 209). -/
def submitResponseBody (id : String) : String :=
  "\x7b\"job_id\":" ++ jsonStr id ++ "\x7d"

/-- The submit branches of `handle_request` (src/src/main.rs lines
170-185 and 195-210) after the body is parsed, restricted to their
registry and response actions in source order: `insert_job_pending` runs
first, then the `job_id` response body is built and written; the spawned
thread's terminal write is a later `RegOp`. -/
def handleSubmit (r : Registry) (id : String) : Registry × String :=
  let r2 := insert_job_pending r id
  (r2, submitResponseBody id)

/-- The query-string handling of the `/api/job` route (src/src/main.rs
lines 234-239): `id=`, else `job_id=`, else empty. -/
def parseJobIdParam (q : String) : String :=
  ((stripPfx q "id=").orElse (fun _ => stripPfx q "job_id=")).getD ""

/-- One HTTP response as `write_response`/`write_error_response` shape
it: status line, content type, body. -/
structure HttpResponse where
  status : String
  contentType : String
  body : String
deriving DecidableEq

/-- The `/api/job` arm of `handle_get` (src/src/main.rs lines 233-245):
empty id parameter means 400, otherwise 200 with the registry status
body. -/
def handleApiJob (r : Registry) (query : String) : HttpResponse :=
  let jobId := parseJobIdParam query
  if strIsEmpty jobId then
    ⟨"400 Bad Request", "text/plain; charset=utf-8", "Missing id parameter"⟩
  else
    ⟨"200 OK", "application/json", get_job_status_json r jobId⟩

/-- Decimal rendering of an unsigned integer, as Rust's `Display` for
`u64`/`u128` prints it (most significant digit first, `0` for zero). -/
def natToString (n : Nat) : String :=
  if n = 0 then "0" else ⟨((Nat.digits 10 n).map Nat.digitChar).reverse⟩

/-- `new_job_id` (src/src/main.rs lines 436-440) at one call: `ts` is the
wall-clock millisecond reading, `counter` the value
`JOB_COUNTER.fetch_add(1)` returns; the result is the
`format!("job-{}-{}", ts, n)` string and the counter the atomic now
holds. -/
def new_job_id (ts : Nat) (counter : Nat) : String × Nat :=
  ("job-" ++ natToString ts ++ "-" ++ natToString counter, counter + 1)

/-- The id the i-th `new_job_id` call produces: the atomic `fetch_add`
hands the i-th call (in the order the hardware serializes them) the
counter value `c0 + i` whatever timestamps `tsSeq` the calls observe. -/
def jobIdAt (tsSeq : Nat → Nat) (c0 : Nat) (i : Nat) : String :=
  (new_job_id (tsSeq i) (c0 + i)).1

/-- A chat message as `ollama::summarize` builds them
(src/src/ollama.rs lines 20-24). -/
structure ChatMessage where
  role : String
  content : String
deriving DecidableEq

/-- The parsed Ollama reply (src/src/ollama.rs lines 26-39): an optional
message and the optional `done_reason`. -/
structure ChatResponse where
  message : Option ChatMessage
  done_reason : Option String
deriving DecidableEq

/-- One backend round trip as `ollama::summarize` observes it: the HTTP
status (`minreq` reports an `i32`), the raw body text used for non-2xx
errors, and the parsed reply for 2xx answers.  Transport failures and
unparsable 2xx bodies abort the call with `Error::Request` before the
loop logic runs; they are outside the modelled behaviours. -/
structure BackendTurn where
  status : Int
  raw : String
  response : ChatResponse

/-- Errors of `ollama::summarize` the loop itself produces
(src/src/ollama.rs lines 5-10): a non-2xx status (the model-not-found
special case only rewrites the carried message text), or a turn with no
usable text. -/
inductive OllamaError where
  | statusNotOk (text : String)
  | noTextInResponse
deriving DecidableEq

/-- `reply.message.map(|m| m.content).filter(|s| !s.is_empty())`
(src/src/ollama.rs lines 129-133). -/
def chunkOf (r : ChatResponse) : Option String :=
  (r.message.map (fun m => m.content)).filter (fun s => !(strIsEmpty s))

/-- `reply.done_reason.as_deref() == Some("length")`
(src/src/ollama.rs line 136). -/
def isTruncated (r : ChatResponse) : Bool :=
  r.done_reason == some "length"

/-- The loop of `ollama::summarize` (src/src/ollama.rs lines 69-142).
The backend behaviour is indexed by the turn number `t` (starting at 1),
abstracting the conversation the code resends each turn; `remaining` is
the number of continuation turns still allowed, `max_cont + 1 - t`, so
the source's break condition `!truncated || turns > max_cont` reads:
stop on a non-truncated turn, or when no continuation is allowed.  The
returned number is the turn counter at exit, i.e. how many backend calls
were made. -/
def summarizeGo (backend : Nat → BackendTurn) :
    Nat → Nat → String → (Except OllamaError String) × Nat
  | remaining, t, acc =>
    let bt := backend t
    if bt.status < 200 ∨ bt.status > 299 then (.error (.statusNotOk bt.raw), t)
    else
      match chunkOf bt.response with
      | none => (.error .noTextInResponse, t)
      | some chunk =>
        let acc2 := acc ++ chunk
        if isTruncated bt.response = false then (.ok acc2, t)
        else
          match remaining with
          | 0 => (.ok acc2, t)
          | r + 1 => summarizeGo backend r (t + 1) acc2

/-- `ollama::summarize` for a given continuation budget
(`OLLAMA_AUTO_CONT_MAX`, default 2): the loop enters turn 1 with an
empty accumulator and `max_cont` continuations in reserve. -/
def summarize (backend : Nat → BackendTurn) (maxCont : Nat) :
    (Except OllamaError String) × Nat :=
  summarizeGo backend maxCont 1 ""

/-- The turn at which the loop entered at turn `t` with `remaining`
continuations left stops: the first non-truncated turn, or the turn at
which the budget runs out. -/
def stopTurn (backend : Nat → BackendTurn) : Nat → Nat → Nat
  | remaining, t =>
    if isTruncated (backend t).response = false then t
    else
      match remaining with
      | 0 => t
      | r + 1 => stopTurn backend r (t + 1)

/-- The text of turn `t` (empty when the turn has no usable text; under
the hypotheses of the claims it is the turn's non-empty content). -/
def turnText (backend : Nat → BackendTurn) (t : Nat) : String :=
  (chunkOf (backend t).response).getD ""

/-- The in-order concatenation of the texts of turns 1 through `n`. -/
def accTexts (backend : Nat → BackendTurn) : Nat → String
  | 0 => ""
  | n + 1 => accTexts backend n ++ turnText backend (n + 1)

/-- A backend behaviour for concrete evaluation: every turn answers 200
with non-empty text "a" and reports truncation. -/
def truncBackend : Nat → BackendTurn :=
  fun _ => ⟨200, "", ⟨some ⟨"assistant", "a"⟩, some "length"⟩⟩

/-- `SummarizeRequest` (src/src/main.rs lines 17-30). -/
structure SummarizeRequest where
  url : String
  api_key : Option String
  model : Option String
  system_prompt : Option String
  dry_run : Bool
  transcript_only : Bool

/-- `SummarizeResponse` (src/src/main.rs lines 32-37). -/
structure SummarizeResponse where
  summary : String
  subtitles : String
  video_name : String
deriving DecidableEq

/-- The collaborators `perform_summary_work` calls: the outcome
`get_video_data(&req.url, "en")` would produce for this request
(transcript and video name on success), and the outcome
`ollama::summarize` would produce for given model, system prompt and
user content. -/
structure Collaborators where
  fetchVideoData : Except String (String × String)
  complete : String → String → String → Except String String

/-- Modelled from the spec: the bundled `markdown_test.md` asset
(`include_str!` in src/src/main.rs line 252) is not part of src/; the
claims depend only on it being one fixed text. -/
def markdown_test_md : String :=
  "# Markdown Test"

/-- The default model name (src/src/main.rs line 274). -/
def defaultModel : String := "gpt-oss:20b"

/-- The default summarization system prompt (src/src/main.rs lines
275-308). -/
def defaultSummarySystemPrompt : String :=
  "You are an expert video summarizer. Given a raw YouTube transcript (and optionally the video title), produce a debate-ready Markdown summary that captures the speaker\x27s core thesis, structure, and evidence without adding facts that aren\x27t in the transcript.\n\nTone and perspective:\n- Use a neutral narrator voice: refer to the narrator as \"the speaker\" (e.g., \"The speaker argues...\").\n- Preserve the speaker\x27s stance and rhetoric, but do not editorialize or inject new claims.\n- If something is not mentioned, say \"Not mentioned\" instead of guessing.\n\nOutput format (Markdown only):\n1) Start with a punchy H2 title that captures the thesis.\n    - Format: \"## \x7bConcise, compelling title reflecting the main claim\x7d\"\n2) One short opening paragraph (2–3 sentences) that frames the overall argument.\n3) 3–6 H3 sections with clear, descriptive headings that organize the content.\n    - For each section:\n      - 1–2 concise paragraphs.\n      - Follow with bullet points using \"* \". Bold key terms and claims like **Bitcoin**, **employment**, **risk**, **status**, **leverage**, etc.\n      - Where helpful, add a short numbered list (1.–3.) for steps/frameworks.\n4) If the transcript includes critiques of alternatives or comparisons, include a separate section summarizing them (e.g., \"### Critique of \x7bX\x7d\").\n5) If practical steps are given, include a short \"### Actionable Steps\" section.\n6) If risks, caveats, timelines, metrics, or quotes appear, preserve them verbatim (use inline quotes for short lines, blockquotes for longer).\n7) End cleanly without a generic conclusion if it repeats content.\n\nStyle constraints:\n- Do not use tables. Use headings, paragraphs, and bullet lists only.\n- Use bold to highlight crucial terms and takeaways (not entire sentences).\n- Keep factual fidelity: do not add numbers, timelines, or names that aren\x27t in the transcript.\n- Prefer concrete details (figures, dates, specific names) when present.\n- Remove ads/sponsors, filler, repeated phrases, and irrelevant tangents.\n- Length target: ~300–700 words for typical videos; go longer only if the transcript is dense.\n\nSafety/accuracy:\n- If the transcript is incomplete or ambiguous, note \"Not mentioned,\" \"Unclear,\" or \"Ambiguous\" where appropriate.\n- Do not invent references, links, or sources.\n- Do not give prescriptive financial, medical, or legal advice; only summarize what the speaker says."

/-- `perform_summary_work` (src/src/main.rs lines 250-321) over the
collaborator outcomes.  Besides the handler's `Result`, the pair of
booleans records whether `get_video_data` and `ollama::summarize` were
called at all. -/
def perform_summary_work (c : Collaborators) (req : SummarizeRequest) :
    (Except String SummarizeResponse) × Bool × Bool :=
  if req.dry_run then
    (.ok ⟨markdown_test_md, markdown_test_md, "Dry Run"⟩, false, false)
  else
    match c.fetchVideoData with
    | .error e => (.error ("Transcript error: " ++ e), true, false)
    | .ok (transcript, video_name) =>
      if req.transcript_only then
        (.ok ⟨transcript, transcript, video_name⟩, true, false)
      else
        let model := (req.model.filter (fun m => !(strIsEmpty (strTrim m)))).getD defaultModel
        let systemPrompt := req.system_prompt.getD defaultSummarySystemPrompt
        let userContent := "Title: " ++ video_name ++ "\n\nTranscript:\n" ++ transcript
        match c.complete model systemPrompt userContent with
        | .error e => (.error ("Ollama error: " ++ e), true, true)
        | .ok summary => (.ok ⟨summary, transcript, video_name⟩, true, true)

theorem strIsEmpty_iff (s : String) : strIsEmpty s = true ↔ s = "" := by
  cases s with
  | mk data =>
    simp [strIsEmpty, List.isEmpty_iff, String.ext_iff]

/-- Claim C5: on a `Full` non-blocking enqueue the accept path itself
answers `503 Service Unavailable` with the busy message and enqueues no
work item; on `Disconnected` it answers `500 Internal Server Error`; on
a successful enqueue the accept path writes nothing and the item is
queued. -/
theorem accept_path_admission :
    handle_connection TrySendOutcome.full
      = ⟨some ("503 Service Unavailable", "Server is busy, please try again later."), false⟩
    ∧ handle_connection TrySendOutcome.disconnected
      = ⟨some ("500 Internal Server Error", "Worker pool has been disconnected."), false⟩
    ∧ handle_connection TrySendOutcome.sent = ⟨none, true⟩ :=
  ⟨rfl, rfl, rfl⟩

/-- Counterexample to claim C4 as stated: with three bytes already
captured past the terminator and a declared length of 1, `read_body`
returns all three captured bytes, so the body length is 3, not the
declared 1. -/
theorem read_body_exact_length_counterexample :
    (read_body [0, 1, 2] 1 []).length = 3
    ∧ ¬ (read_body [0, 1, 2] 1 []).length = 1 := by
  decide

/-- Claim C4 (amended): `read_body` reuses the captured bytes and reads
exactly `content_length - captured` further bytes, so the body has
exactly `content_length` bytes, whenever the captured slice has at most
`content_length` bytes and the stream supplies the remainder; when the
declared length is at most the captured count, the captured slice is
returned whole and nothing is read from the stream. -/
theorem read_body_spec (initialData : List UInt8) (contentLength : Nat) (stream : List UInt8) :
    (initialData.length ≤ contentLength →
      contentLength - initialData.length ≤ stream.length →
      read_body initialData contentLength stream
        = initialData ++ stream.take (contentLength - initialData.length)
      ∧ (read_body initialData contentLength stream).length = contentLength)
    ∧ (contentLength ≤ initialData.length →
      read_body initialData contentLength stream = initialData) := by
  constructor
  · intro h1 h2
    refine ⟨rfl, ?_⟩
    simp only [read_body, List.length_append, List.length_take]
    omega
  · intro h
    have hz : contentLength - initialData.length = 0 := Nat.sub_eq_zero_of_le h
    simp [read_body, hz]

/-- Claim C3 evidence (code bug): the request line of a
`POST /api/submit_script` request satisfies the `POST /api/submit`
prefix test, which `handle_request` tries first, so dispatch lands in
the `/api/submit` summary branch and the dedicated script branch is
unreachable. -/
theorem submit_script_routing :
    routeOf "POST /api/submit_script HTTP/1.1" = Route.submit
    ∧ Route.submit ≠ Route.submitScript := by
  exact ⟨by decide, by decide⟩

theorem regInsert_keeps_present (r : Registry) (id k : String) (s : JobStatus)
    (h : ∃ x, r id = some x) : ∃ x, regInsert r k s id = some x := by
  unfold regInsert
  by_cases hik : id = k
  · exact ⟨s, by simp [hik]⟩
  · obtain ⟨x, hx⟩ := h
    exact ⟨x, by simp [hik, hx]⟩

theorem applyRegOps_keeps_present (ops : List RegOp) :
    ∀ (r : Registry) (id : String), (∃ x, r id = some x) →
      ∃ x, applyRegOps r ops id = some x := by
  induction ops with
  | nil => intro r id h; exact h
  | cons op rest ih =>
    intro r id h
    have h2 : ∃ x, applyRegOp r op id = some x := by
      cases op with
      | insertPending k => exact regInsert_keeps_present r id k _ h
      | setDone k v => exact regInsert_keeps_present r id k _ h
      | setError k e => exact regInsert_keeps_present r id k _ h
    exact ih (applyRegOp r op) id h2

/-- Claim C1: a submit branch inserts the fresh id as `Pending` and only
then produces the `job_id` response, so at the moment the id reaches the
client its registry entry reads `Pending`, and after any sequence of
later registry writes (the spawned thread's terminal write included) the
entry still exists — a poll never answers not-found. -/
theorem submit_id_pending_before_response (r : Registry) (id : String) (ops : List RegOp) :
    (handleSubmit r id).1 id = some JobStatus.pending
    ∧ (handleSubmit r id).2 = submitResponseBody id
    ∧ get_job_status_json (handleSubmit r id).1 id = jobStatusJson JobStatus.pending
    ∧ ∃ s, applyRegOps (handleSubmit r id).1 ops id = some s := by
  have hp : (handleSubmit r id).1 id = some JobStatus.pending := by
    simp [handleSubmit, insert_job_pending, regInsert]
  refine ⟨hp, rfl, ?_, ?_⟩
  · simp [get_job_status_json, hp]
  · exact applyRegOps_keeps_present ops _ id ⟨JobStatus.pending, hp⟩

/-- Claim C10: with `dry_run` false and `transcript_only` true, a
successful transcript fetch makes `perform_summary_work` succeed with
both `summary` and `subtitles` equal to the transcript and the Ollama
backend never called; with `dry_run` true it returns the fixed test
content for both fields without calling either collaborator. -/
theorem summary_work_flags (c : Collaborators) (req : SummarizeRequest)
    (transcript name : String) :
    (req.dry_run = false → req.transcript_only = true →
      c.fetchVideoData = .ok (transcript, name) →
      perform_summary_work c req = (.ok ⟨transcript, transcript, name⟩, true, false))
    ∧ (req.dry_run = true →
      perform_summary_work c req
        = (.ok ⟨markdown_test_md, markdown_test_md, "Dry Run"⟩, false, false)) := by
  constructor
  · intro hd ht hf
    simp [perform_summary_work, hd, hf, ht]
  · intro hd
    simp [perform_summary_work, hd]

theorem getContentLengthGo_first_match (pre post : List String) (l : String)
    (hpre : ∀ x ∈ pre, isContentLengthLine x = false)
    (hl : isContentLengthLine l = true) :
    getContentLengthGo (pre ++ l :: post) = parseCLLine l := by
  induction pre with
  | nil => simp [getContentLengthGo, hl]
  | cons x rest ih =>
    have hx : isContentLengthLine x = false := hpre x (by simp)
    have hrest : ∀ y ∈ rest, isContentLengthLine y = false :=
      fun y hy => hpre y (by simp [hy])
    simpa [getContentLengthGo, hx] using ih hrest

theorem getContentLengthGo_no_match (ls : List String)
    (h : ∀ x ∈ ls, isContentLengthLine x = false) :
    getContentLengthGo ls = none := by
  induction ls with
  | nil => rfl
  | cons x rest ih =>
    have hx : isContentLengthLine x = false := h x (by simp)
    have hrest : ∀ y ∈ rest, isContentLengthLine y = false :=
      fun y hy => h y (by simp [hy])
    simpa [getContentLengthGo, hx] using ih hrest

/-- Claim C8: `get_content_length` scans the header lines for a
lowercased `content-length:` head and the first matching line decides
the result (later matching lines are ignored); with no matching line it
yields nothing; and a POST branch whose headers yield no length fails
with the missing-length error without touching the body stream. -/
theorem content_length_first_match_wins (pre post : List String) (l headers : String)
    (ib stream : List UInt8) :
    get_content_length headers = getContentLengthGo (rustLines headers)
    ∧ ((∀ x ∈ pre, isContentLengthLine x = false) → isContentLengthLine l = true →
        getContentLengthGo (pre ++ l :: post) = parseCLLine l)
    ∧ ((∀ x ∈ rustLines headers, isContentLengthLine x = false) →
        get_content_length headers = none)
    ∧ (get_content_length headers = none →
        postReadBody headers ib stream = .error FramingError.missingLength) := by
  refine ⟨rfl, ?_, ?_, ?_⟩
  · intro hpre hl
    exact getContentLengthGo_first_match pre post l hpre hl
  · intro h
    exact getContentLengthGo_no_match _ h
  · intro h
    simp [postReadBody, h]

/-- Claim C7: a `GET /api/job` whose query supplies an id (via `id=` or
`job_id=`) is answered 200 with the registry state serialized in one of
the documented shapes — pending, done-with-result, error-with-message —
or, for an id absent from the registry, the exact not-found payload;
a query supplying no id is answered `400 Bad Request`. -/
theorem api_job_poll_response (r : Registry) (q : String) :
    (parseJobIdParam q = "" →
      handleApiJob r q
        = ⟨"400 Bad Request", "text/plain; charset=utf-8", "Missing id parameter"⟩)
    ∧ (parseJobIdParam q ≠ "" →
      handleApiJob r q
        = ⟨"200 OK", "application/json", get_job_status_json r (parseJobIdParam q)⟩
      ∧ (get_job_status_json r (parseJobIdParam q) = "\x7b\"status\":\"pending\"\x7d"
         ∨ (∃ v, get_job_status_json r (parseJobIdParam q)
              = "\x7b\"status\":\"done\",\"result\":" ++ v ++ "\x7d")
         ∨ (∃ e, get_job_status_json r (parseJobIdParam q)
              = "\x7b\"status\":\"error\",\"error\":" ++ jsonStr e ++ "\x7d")
         ∨ (r (parseJobIdParam q) = none
            ∧ get_job_status_json r (parseJobIdParam q) = notFoundJson))) := by
  constructor
  · intro h
    have he : strIsEmpty (parseJobIdParam q) = true := (strIsEmpty_iff _).mpr h
    simp [handleApiJob, he]
  · intro h
    have he : strIsEmpty (parseJobIdParam q) = false := by
      cases hb : strIsEmpty (parseJobIdParam q) with
      | true => exact absurd ((strIsEmpty_iff _).mp hb) h
      | false => rfl
    refine ⟨by simp [handleApiJob, he], ?_⟩
    cases hr : r (parseJobIdParam q) with
    | none =>
      refine Or.inr (Or.inr (Or.inr ⟨rfl, ?_⟩))
      simp [get_job_status_json, hr]
    | some s =>
      cases s with
      | pending => exact Or.inl (by simp [get_job_status_json, hr, jobStatusJson])
      | done v => exact Or.inr (Or.inl ⟨v, by simp [get_job_status_json, hr, jobStatusJson]⟩)
      | error e =>
        exact Or.inr (Or.inr (Or.inl ⟨e, by simp [get_job_status_json, hr, jobStatusJson]⟩))

theorem readHeadersGo_spec (chunks : List (List UInt8)) :
    ∀ buffer : List UInt8, findTerminator buffer = none →
    match readHeadersGo chunks buffer with
    | .ok buf i =>
        4 ≤ i ∧ findTerminator buf = some (i - 4)
        ∧ ∃ k, k ≤ chunks.length ∧ buf = buffer ++ (chunks.take k).join
    | .connectionClosed =>
        ∃ k, chunks[k]? = some ([] : List UInt8)
        ∧ findTerminator (buffer ++ (chunks.take k).join) = none
    | .headersTooLarge =>
        ∃ k, k ≤ chunks.length
        ∧ findTerminator (buffer ++ (chunks.take k).join) = none
        ∧ MAX_HEADER_SIZE < (buffer ++ (chunks.take k).join).length
    | .streamEnded => True := by
  induction chunks with
  | nil =>
    intro buffer _
    simp [readHeadersGo]
  | cons c rest ih =>
    intro buffer hbuf
    by_cases hc : c.length = 0
    · have hcnil : c = [] := List.length_eq_zero.mp hc
      simp only [readHeadersGo, hc, if_pos rfl]
      exact ⟨0, by simp [hcnil], by simpa using hbuf⟩
    · simp only [readHeadersGo, hc, if_neg hc]
      cases hft : findTerminator (buffer ++ c) with
      | some pos =>
        refine ⟨by omega, by simpa using hft, 1, by simp, ?_⟩
        simp
      | none =>
        by_cases hlen : (buffer ++ c).length > MAX_HEADER_SIZE
        · simp only [if_pos hlen]
          exact ⟨1, by simp, by simpa using hft, by simpa using hlen⟩
        · simp only [if_neg hlen]
          have := ih (buffer ++ c) hft
          cases hres : readHeadersGo rest (buffer ++ c) with
          | ok buf i =>
            rw [hres] at this
            obtain ⟨h4, hterm, k, hk, hbufeq⟩ := this
            exact ⟨h4, hterm, k + 1, by simpa using hk, by simpa [List.join] using hbufeq⟩
          | connectionClosed =>
            rw [hres] at this
            obtain ⟨k, hk, hnone⟩ := this
            exact ⟨k + 1, by simpa using hk, by simpa [List.join] using hnone⟩
          | headersTooLarge =>
            rw [hres] at this
            obtain ⟨k, hk, hnone, hbig⟩ := this
            refine ⟨k + 1, by simpa using hk, by simpa [List.join] using hnone,
              by simpa [List.join] using hbig⟩
          | streamEnded => trivial

/-- Claim C6: `read_headers_from_stream` returns the accumulated buffer
with the offset just past the first CRLFCRLF terminator when one
appears; it fails with the headers-too-large error only after some
read prefix of the stream exceeded `MAX_HEADER_SIZE` without containing
the terminator, and with the connection-closed error only when a
zero-length read arrived while the buffer still had no terminator; any
other run of the model corresponds to a propagated stream error. -/
theorem read_headers_outcomes (chunks : List (List UInt8)) :
    match read_headers_from_stream chunks with
    | .ok buf i =>
        4 ≤ i ∧ findTerminator buf = some (i - 4)
        ∧ ∃ k, k ≤ chunks.length ∧ buf = (chunks.take k).join
    | .connectionClosed =>
        ∃ k, chunks[k]? = some ([] : List UInt8)
        ∧ findTerminator ((chunks.take k).join) = none
    | .headersTooLarge =>
        ∃ k, k ≤ chunks.length
        ∧ findTerminator ((chunks.take k).join) = none
        ∧ MAX_HEADER_SIZE < ((chunks.take k).join).length
    | .streamEnded => True := by
  have h := readHeadersGo_spec chunks [] rfl
  simpa [read_headers_from_stream] using h

theorem summarizeGo_zero (backend : Nat → BackendTurn) (t : Nat) (acc : String) :
    summarizeGo backend 0 t acc =
      if (backend t).status < 200 ∨ (backend t).status > 299 then
        (.error (.statusNotOk (backend t).raw), t)
      else
        match chunkOf (backend t).response with
        | none => (.error .noTextInResponse, t)
        | some chunk =>
          if isTruncated (backend t).response = false then (.ok (acc ++ chunk), t)
          else (.ok (acc ++ chunk), t) := by
  conv_lhs => rw [summarizeGo]

theorem summarizeGo_succ (backend : Nat → BackendTurn) (r t : Nat) (acc : String) :
    summarizeGo backend (r + 1) t acc =
      if (backend t).status < 200 ∨ (backend t).status > 299 then
        (.error (.statusNotOk (backend t).raw), t)
      else
        match chunkOf (backend t).response with
        | none => (.error .noTextInResponse, t)
        | some chunk =>
          if isTruncated (backend t).response = false then (.ok (acc ++ chunk), t)
          else summarizeGo backend r (t + 1) (acc ++ chunk) := by
  conv_lhs => rw [summarizeGo]

theorem stopTurn_zero (backend : Nat → BackendTurn) (t : Nat) :
    stopTurn backend 0 t = t := by
  conv_lhs => rw [stopTurn]
  split <;> rfl

theorem stopTurn_succ (backend : Nat → BackendTurn) (r t : Nat) :
    stopTurn backend (r + 1) t =
      if isTruncated (backend t).response = false then t
      else stopTurn backend r (t + 1) := by
  conv_lhs => rw [stopTurn]

theorem stopTurn_ge (backend : Nat → BackendTurn) :
    ∀ r t, t ≤ stopTurn backend r t := by
  intro r
  induction r with
  | zero => intro t; rw [stopTurn_zero]
  | succ r ih =>
    intro t
    rw [stopTurn_succ]
    split
    · exact le_refl t
    · exact le_trans (Nat.le_succ t) (ih (t + 1))

theorem stopTurn_le (backend : Nat → BackendTurn) :
    ∀ r t, stopTurn backend r t ≤ t + r := by
  intro r
  induction r with
  | zero =>
    intro t
    rw [stopTurn_zero]
    omega
  | succ r ih =>
    intro t
    rw [stopTurn_succ]
    split
    · omega
    · have := ih (t + 1)
      omega

theorem stopTurn_trunc_before (backend : Nat → BackendTurn) :
    ∀ r t s, t ≤ s → s < stopTurn backend r t →
      isTruncated (backend s).response = true := by
  intro r
  induction r with
  | zero =>
    intro t s hts hlt
    rw [stopTurn_zero] at hlt
    omega
  | succ r ih =>
    intro t s hts hlt
    rw [stopTurn_succ] at hlt
    by_cases htr : isTruncated (backend t).response = false
    · rw [if_pos htr] at hlt
      omega
    · rw [if_neg htr] at hlt
      by_cases hst : s = t
      · subst hst
        revert htr
        cases isTruncated (backend s).response <;> simp
      · exact ih (t + 1) s (by omega) hlt

theorem stopTurn_end (backend : Nat → BackendTurn) :
    ∀ r t, isTruncated (backend (stopTurn backend r t)).response = false
      ∨ stopTurn backend r t = t + r := by
  intro r
  induction r with
  | zero =>
    intro t
    rw [stopTurn_zero]
    omega
  | succ r ih =>
    intro t
    rw [stopTurn_succ]
    by_cases htr : isTruncated (backend t).response = false
    · rw [if_pos htr]
      exact Or.inl htr
    · rw [if_neg htr]
      rcases ih (t + 1) with h | h
      · exact Or.inl h
      · exact Or.inr (by omega)

theorem summarizeGo_eq (backend : Nat → BackendTurn)
    (hok : ∀ t, 1 ≤ t → 200 ≤ (backend t).status ∧ (backend t).status ≤ 299)
    (htext : ∀ t, 1 ≤ t → ∃ c, chunkOf (backend t).response = some c) :
    ∀ remaining t, 1 ≤ t →
      summarizeGo backend remaining t (accTexts backend (t - 1))
        = (Except.ok (accTexts backend (stopTurn backend remaining t)),
           stopTurn backend remaining t) := by
  intro remaining
  induction remaining with
  | zero =>
    intro t ht
    obtain ⟨c, hc⟩ := htext t ht
    obtain ⟨h1, h2⟩ := hok t ht
    have hcond : ¬((backend t).status < 200 ∨ (backend t).status > 299) := by omega
    have hacc : accTexts backend (t - 1) ++ c = accTexts backend t := by
      have ht1 : t - 1 + 1 = t := Nat.succ_pred_eq_of_pos ht
      conv_rhs => rw [← ht1]
      simp [accTexts, turnText, ht1, hc]
    rw [summarizeGo_zero, if_neg hcond, hc, stopTurn_zero]
    show (if isTruncated (backend t).response = false
          then (Except.ok (accTexts backend (t - 1) ++ c), t)
          else (Except.ok (accTexts backend (t - 1) ++ c), t))
        = (Except.ok (accTexts backend t), t)
    rw [hacc]
    split <;> rfl
  | succ r ih =>
    intro t ht
    obtain ⟨c, hc⟩ := htext t ht
    obtain ⟨h1, h2⟩ := hok t ht
    have hcond : ¬((backend t).status < 200 ∨ (backend t).status > 299) := by omega
    have hacc : accTexts backend (t - 1) ++ c = accTexts backend t := by
      have ht1 : t - 1 + 1 = t := Nat.succ_pred_eq_of_pos ht
      conv_rhs => rw [← ht1]
      simp [accTexts, turnText, ht1, hc]
    rw [summarizeGo_succ, if_neg hcond, hc, stopTurn_succ]
    show (if isTruncated (backend t).response = false
          then (Except.ok (accTexts backend (t - 1) ++ c), t)
          else summarizeGo backend r (t + 1) (accTexts backend (t - 1) ++ c))
        = (Except.ok (accTexts backend
            (if isTruncated (backend t).response = false then t
             else stopTurn backend r (t + 1))),
           if isTruncated (backend t).response = false then t
           else stopTurn backend r (t + 1))
    by_cases htr : isTruncated (backend t).response = false
    · simp only [if_pos htr]
      rw [hacc]
    · simp only [if_neg htr]
      rw [hacc]
      exact ih (t + 1) (by omega)

/-- Claim C2: when every turn of the backend answers 2xx with non-empty
text, `ollama::summarize` returns `Ok` of the in-order concatenation of
the texts of turns 1..k, where k (the number of backend calls) is the
first turn whose reply is not marked truncated, capped at the
continuation budget plus one; in particular with every turn truncated it
stops after budget+1 calls and still returns all accumulated text,
the final truncated turn included, never an error. -/
theorem summarize_accumulates (backend : Nat → BackendTurn) (maxCont : Nat)
    (hok : ∀ t, 1 ≤ t → 200 ≤ (backend t).status ∧ (backend t).status ≤ 299)
    (htext : ∀ t, 1 ≤ t → ∃ c, chunkOf (backend t).response = some c) :
    (summarize backend maxCont).1
      = Except.ok (accTexts backend (summarize backend maxCont).2)
    ∧ 1 ≤ (summarize backend maxCont).2
    ∧ (summarize backend maxCont).2 ≤ maxCont + 1
    ∧ (∀ s, 1 ≤ s → s < (summarize backend maxCont).2 →
        isTruncated (backend s).response = true)
    ∧ (isTruncated (backend (summarize backend maxCont).2).response = false
       ∨ (summarize backend maxCont).2 = maxCont + 1) := by
  have hsum : summarize backend maxCont
      = (Except.ok (accTexts backend (stopTurn backend maxCont 1)),
         stopTurn backend maxCont 1) := by
    have h := summarizeGo_eq backend hok htext maxCont 1 (by omega)
    simpa [summarize, accTexts] using h
  refine ⟨?_, ?_, ?_, ?_, ?_⟩
  · rw [hsum]
  · rw [hsum]
    exact stopTurn_ge backend maxCont 1
  · rw [hsum]
    have := stopTurn_le backend maxCont 1
    omega
  · intro s h1 h2
    rw [hsum] at h2
    exact stopTurn_trunc_before backend maxCont 1 s h1 h2
  · rw [hsum]
    rcases stopTurn_end backend maxCont 1 with h | h
    · exact Or.inl h
    · exact Or.inr (by omega)

/-- Witness for claim C2: the always-truncating backend `truncBackend`
with continuation budget 2 satisfies the accumulated-output and
call-count characterization concretely. -/
theorem summarize_accumulates_witness :
    (summarize truncBackend 2).1
      = Except.ok (accTexts truncBackend (summarize truncBackend 2).2)
    ∧ 1 ≤ (summarize truncBackend 2).2
    ∧ (summarize truncBackend 2).2 ≤ 2 + 1
    ∧ (∀ s, 1 ≤ s → s < (summarize truncBackend 2).2 →
        isTruncated (truncBackend s).response = true)
    ∧ (isTruncated (truncBackend (summarize truncBackend 2).2).response = false
       ∨ (summarize truncBackend 2).2 = 2 + 1) :=
  summarize_accumulates truncBackend 2
    (fun _ _ => ⟨le_refl 200, (by norm_num : (200 : Int) ≤ 299)⟩)
    (fun _ _ => ⟨"a", rfl⟩)

theorem digitChar_inj_lt :
    ∀ a : Nat, a < 10 → ∀ b : Nat, b < 10 → Nat.digitChar a = Nat.digitChar b → a = b := by
  decide

theorem digitChar_ne_dash : ∀ a : Nat, a < 10 → Nat.digitChar a ≠ '-' := by
  decide

theorem natToString_no_dash (n : Nat) : '-' ∉ (natToString n).data := by
  unfold natToString
  by_cases h : n = 0
  · rw [if_pos h]
    decide
  · rw [if_neg h]
    intro hmem
    rw [List.mem_reverse] at hmem
    obtain ⟨d, hd, hdc⟩ := List.mem_map.mp hmem
    exact digitChar_ne_dash d (Nat.digits_lt_base (by norm_num) hd) hdc

theorem digits_map_digitChar_inj :
    ∀ l1 l2 : List Nat, (∀ d ∈ l1, d < 10) → (∀ d ∈ l2, d < 10) →
      l1.map Nat.digitChar = l2.map Nat.digitChar → l1 = l2 := by
  intro l1
  induction l1 with
  | nil =>
    intro l2 _ _ h
    cases l2 with
    | nil => rfl
    | cons b t => simp at h
  | cons a t1 ih =>
    intro l2 h1 h2 h
    cases l2 with
    | nil => simp at h
    | cons b t2 =>
      simp only [List.map_cons, List.cons.injEq] at h
      have hab : a = b :=
        digitChar_inj_lt a (h1 a (by simp)) b (h2 b (by simp)) h.1
      have ht : t1 = t2 :=
        ih t2 (fun d hd => h1 d (by simp [hd])) (fun d hd => h2 d (by simp [hd])) h.2
      rw [hab, ht]

theorem natToString_inj (m n : Nat) (h : natToString m = natToString n) : m = n := by
  have hdata : (natToString m).data = (natToString n).data := congrArg String.data h
  unfold natToString at hdata
  by_cases hm : m = 0 <;> by_cases hn : n = 0
  · rw [hm, hn]
  · rw [if_pos hm, if_neg hn] at hdata
    have hrev : ((Nat.digits 10 n).map Nat.digitChar) = ['0'] := by
      have := congrArg List.reverse hdata
      simpa using this.symm
    have : Nat.digits 10 n = [0] := by
      have h0 : ([0] : List Nat).map Nat.digitChar = ['0'] := by decide
      exact (digits_map_digitChar_inj (Nat.digits 10 n) [0]
        (fun d hd => Nat.digits_lt_base (by norm_num) hd) (by decide)
        (hrev.trans h0.symm))
    have hn0 : n = 0 := by
      have := Nat.ofDigits_digits 10 n
      rw [this.symm, ‹Nat.digits 10 n = [0]›]
      simp [Nat.ofDigits]
    exact absurd hn0 hn
  · rw [if_neg hm, if_pos hn] at hdata
    have hrev : ((Nat.digits 10 m).map Nat.digitChar) = ['0'] := by
      have := congrArg List.reverse hdata
      simpa using this
    have : Nat.digits 10 m = [0] := by
      have h0 : ([0] : List Nat).map Nat.digitChar = ['0'] := by decide
      exact (digits_map_digitChar_inj (Nat.digits 10 m) [0]
        (fun d hd => Nat.digits_lt_base (by norm_num) hd) (by decide)
        (hrev.trans h0.symm))
    have hm0 : m = 0 := by
      have := Nat.ofDigits_digits 10 m
      rw [this.symm, ‹Nat.digits 10 m = [0]›]
      simp [Nat.ofDigits]
    exact absurd hm0 hm
  · rw [if_neg hm, if_neg hn] at hdata
    have hmap : (Nat.digits 10 m).map Nat.digitChar = (Nat.digits 10 n).map Nat.digitChar := by
      have := congrArg List.reverse hdata
      simpa using this
    have hdig : Nat.digits 10 m = Nat.digits 10 n :=
      digits_map_digitChar_inj _ _
        (fun d hd => Nat.digits_lt_base (by norm_num) hd)
        (fun d hd => Nat.digits_lt_base (by norm_num) hd) hmap
    have := congrArg (Nat.ofDigits 10) hdig
    rwa [Nat.ofDigits_digits, Nat.ofDigits_digits] at this

theorem lastDashSplit :
    ∀ (l1 r1 l2 r2 : List Char), '-' ∉ r1 → '-' ∉ r2 →
      l1 ++ '-' :: r1 = l2 ++ '-' :: r2 → r1 = r2 := by
  intro l1
  induction l1 with
  | nil =>
    intro r1 l2 r2 h1 h2 h
    cases l2 with
    | nil => simpa using h
    | cons c l2t =>
      simp only [List.nil_append, List.cons_append, List.cons.injEq] at h
      exact absurd (h.2 ▸ List.mem_append_right l2t (by simp)) h1
  | cons c l1t ih =>
    intro r1 l2 r2 h1 h2 h
    cases l2 with
    | nil =>
      simp only [List.nil_append, List.cons_append, List.cons.injEq] at h
      exact absurd (h.2.symm ▸ List.mem_append_right l1t (by simp)) h2
    | cons c2 l2t =>
      simp only [List.cons_append, List.cons.injEq] at h
      exact ih r1 l2t r2 h1 h2 h.2

/-- Claim C9: two different `new_job_id` calls never return the same
identifier, whatever wall-clock timestamps they observe: the atomic
counter hands each call a distinct value, and the `job-<ts>-<counter>`
encoding maps distinct counter values to distinct strings (the counter
is the dash-free decimal after the last dash). -/
theorem job_ids_distinct (tsSeq : Nat → Nat) (c0 : Nat) (i j : Nat) (h : i ≠ j) :
    jobIdAt tsSeq c0 i ≠ jobIdAt tsSeq c0 j := by
  intro heq
  have hdata : ("job-".data ++ (natToString (tsSeq i)).data)
        ++ '-' :: (natToString (c0 + i)).data
      = ("job-".data ++ (natToString (tsSeq j)).data)
        ++ '-' :: (natToString (c0 + j)).data := by
    have := congrArg String.data heq
    simpa [jobIdAt, new_job_id, String.data_append, List.append_assoc,
      List.singleton_append, List.cons_append] using this
  have hcounter : (natToString (c0 + i)).data = (natToString (c0 + j)).data :=
    lastDashSplit _ _ _ _ (natToString_no_dash (c0 + i)) (natToString_no_dash (c0 + j)) hdata
  have : c0 + i = c0 + j := natToString_inj _ _ (String.ext hcounter)
  omega

/-- Witness for claim C9: the first two calls (counter values 1 and 2)
with equal timestamps yield different identifiers. -/
theorem job_ids_distinct_witness :
    jobIdAt (fun _ => 5) 1 0 ≠ jobIdAt (fun _ => 5) 1 1 ∧ True :=
  ⟨job_ids_distinct (fun _ => 5) 1 0 1 (by decide), trivial⟩
